import Mathlib

/-!
Verification of the peer behaviour reporting facility in p2p/peer_behaviour.go.

The Go file defines a vocabulary of behaviour tags, a reporting contract
(PeerBehaviour), a live implementation forwarding reports to the Switch
(SwitchPeerBehaviour), and an in-memory recording implementation
(StoredPeerBehaviour).  The embedding below translates each Go function into a
Lean function; Go maps become association lists, Go slices in the recording
store become Lean lists, and method calls on a pointer receiver become explicit
state passing.  The sync.RWMutex of StoredPeerBehaviour is modelled by treating
each method body as one atomic step; a concurrent execution is then an
arbitrary interleaving, that is, an arbitrary list of whole method calls.
A separate model with an explicit heap of slice backing arrays is given further
down, where the defensive-copy behaviour of the getters is the point at issue.
-/

/-- Modelled from the spec: the peer identity type p2p.ID, defined outside the
given source file.  The spec treats it as an opaque, comparable, stable token;
in the repository it is a string type. -/
abbrev ID := String

/-- Go type ErrorPeerBehaviour int: types of observable erroneous peer
behaviours.  The constants below are declared with iota. -/
abbrev ErrorPeerBehaviour := Int

/-- Go type GoodPeerBehaviour int: types of good behaviour a peer can
perform.  The constants below are declared with iota + 100. -/
abbrev GoodPeerBehaviour := Int

/-- Go constant ErrorPeerBehaviourUnknown = iota (first, hence 0). -/
def ErrorPeerBehaviourUnknown : ErrorPeerBehaviour := 0

/-- Go constant ErrorPeerBehaviourBadMessage (iota = 1). -/
def ErrorPeerBehaviourBadMessage : ErrorPeerBehaviour := 1

/-- Go constant ErrorPeerBehaviourMessageOutofOrder (iota = 2). -/
def ErrorPeerBehaviourMessageOutofOrder : ErrorPeerBehaviour := 2

/-- Go constant GoodPeerBehaviourVote = iota + 100 (first, hence 100). -/
def GoodPeerBehaviourVote : GoodPeerBehaviour := 100

/-- Go constant GoodPeerBehaviourBlockPart (iota + 100 = 101). -/
def GoodPeerBehaviourBlockPart : GoodPeerBehaviour := 101

/-- Read of a Go map modelled as an association list: the comma-ok form
items, ok := m[k] becomes an Option result. -/
def goMapGet {α : Type} : List (ID × α) → ID → Option α
  | [], _ => none
  | (k, v) :: rest, k0 => if k = k0 then some v else goMapGet rest k0

/-- Write of a Go map modelled as an association list: m[k] = v replaces the
binding of k when present and inserts it otherwise. -/
def goMapSet {α : Type} : List (ID × α) → ID → α → List (ID × α)
  | [], k0, v0 => [(k0, v0)]
  | (k, v) :: rest, k0, v0 =>
      if k = k0 then (k, v0) :: rest else (k, v) :: goMapSet rest k0 v0

/-- Go builtin make of an integer slice of length n: n zero values. -/
def goMake (n : Nat) : List Int := List.replicate n 0

/-- Go builtin copy(dst, src): the first min(len dst, len src) elements of dst
are overwritten with those of src; the tail of dst beyond len src remains. -/
def goCopy (dst src : List Int) : List Int :=
  src.take dst.length ++ dst.drop src.length

/-- Go struct StoredPeerBehaviour: two maps from peer ID to the recorded
behaviour slices.  The mtx field (a sync.RWMutex) has no data content; it is
modelled by the atomicity of each method in the interleaving semantics. -/
structure StoredPeerBehaviour where
  eb : List (ID × List ErrorPeerBehaviour)
  gb : List (ID × List GoodPeerBehaviour)
deriving DecidableEq

/-- Go function NewStoredPeerBehaviour: both maps start empty. -/
def NewStoredPeerBehaviour : StoredPeerBehaviour :=
  { eb := [], gb := [] }

/-- Go method StoredPeerBehaviour.Errored: under the exclusive lock, stores
reason at the end of the error log of peerID, creating the entry when the key
is absent.  The Go method returns nothing. -/
def StoredPeerBehaviour.Errored (spb : StoredPeerBehaviour) (peerID : ID)
    (reason : ErrorPeerBehaviour) : StoredPeerBehaviour :=
  match goMapGet spb.eb peerID with
  | none => { spb with eb := goMapSet spb.eb peerID [reason] }
  | some items => { spb with eb := goMapSet spb.eb peerID (items ++ [reason]) }

/-- Go method StoredPeerBehaviour.Behaved: under the exclusive lock, stores
reason at the end of the good log of peerID, creating the entry when the key
is absent.  The Go method returns nothing. -/
def StoredPeerBehaviour.Behaved (spb : StoredPeerBehaviour) (peerID : ID)
    (reason : GoodPeerBehaviour) : StoredPeerBehaviour :=
  match goMapGet spb.gb peerID with
  | none => { spb with gb := goMapSet spb.gb peerID [reason] }
  | some items => { spb with gb := goMapSet spb.gb peerID (items ++ [reason]) }

/-- Go method StoredPeerBehaviour.GetErrorBehaviours: under the shared lock,
returns a freshly made copy of the error log of peerID, or an empty slice when
the key is absent.  The receiver is returned as the second component: the body
never assigns to it, which the theorems below make explicit. -/
def StoredPeerBehaviour.GetErrorBehaviours (spb : StoredPeerBehaviour)
    (peerID : ID) : List ErrorPeerBehaviour × StoredPeerBehaviour :=
  match goMapGet spb.eb peerID with
  | some items => (goCopy (goMake items.length) items, spb)
  | none => ([], spb)

/-- Go method StoredPeerBehaviour.GetGoodBehaviours: under the shared lock,
returns a freshly made copy of the good log of peerID, or an empty slice when
the key is absent.  The receiver is returned unchanged as the second
component. -/
def StoredPeerBehaviour.GetGoodBehaviours (spb : StoredPeerBehaviour)
    (peerID : ID) : List GoodPeerBehaviour × StoredPeerBehaviour :=
  match goMapGet spb.gb peerID with
  | some items => (goCopy (goMake items.length) items, spb)
  | none => ([], spb)

/-- Modelled from the spec: the connection manager (the Switch, defined outside
the given source file) as far as peer_behaviour.go uses it.  It carries the
active peer set, and we record the calls issued to it: a disconnect-for-cause
call carries the peer and the cause, a promote call carries the peer.  A peer
handle is identified with its ID, the opaque token by which it is looked up. -/
structure Switch where
  peers : List ID
  stopPeerForErrorCalls : List (ID × ErrorPeerBehaviour)
  markPeerAsGoodCalls : List ID
deriving DecidableEq

/-- Modelled from the spec: sw.Peers().Get(peerID), the lookup capability of
the connection manager, returning the peer handle when peerID is in the active
peer set and nil (none) otherwise. -/
def Switch.peersGet (sw : Switch) (peerID : ID) : Option ID :=
  if peerID ∈ sw.peers then some peerID else none

/-- Modelled from the spec: sw.StopPeerForError(peer, reason), the
disconnect-for-cause capability of the connection manager; fire-and-forget, so
the model records that exactly this call was issued. -/
def Switch.StopPeerForError (sw : Switch) (peer : ID)
    (reason : ErrorPeerBehaviour) : Switch :=
  { sw with stopPeerForErrorCalls := sw.stopPeerForErrorCalls ++ [(peer, reason)] }

/-- Modelled from the spec: sw.MarkPeerAsGood(peer), the promote-to-trusted
capability of the connection manager; fire-and-forget, so the model records
that exactly this call was issued. -/
def Switch.MarkPeerAsGood (sw : Switch) (peer : ID) : Switch :=
  { sw with markPeerAsGoodCalls := sw.markPeerAsGoodCalls ++ [peer] }

/-- Go struct SwitchPeerBehaviour: wraps a reference to the Switch. -/
structure SwitchPeerBehaviour where
  sw : Switch
deriving DecidableEq

/-- Go function NewSwitchPeerBehaviour: wraps the given Switch. -/
def NewSwitchPeerBehaviour (sw : Switch) : SwitchPeerBehaviour :=
  { sw := sw }

/-- Go method SwitchPeerBehaviour.Errored: looks the peer up in the Switch;
when absent returns errors.New with the text below; when present issues
StopPeerForError with the same reason and returns nil (ok). -/
def SwitchPeerBehaviour.Errored (spb : SwitchPeerBehaviour) (peerID : ID)
    (reason : ErrorPeerBehaviour) : Except String Unit × SwitchPeerBehaviour :=
  match spb.sw.peersGet peerID with
  | none => (Except.error "Peer not found", spb)
  | some peer => (Except.ok (), { spb with sw := spb.sw.StopPeerForError peer reason })

/-- Go method SwitchPeerBehaviour.Behaved: looks the peer up in the Switch;
when absent returns errors.New with the text below; when present issues
MarkPeerAsGood (the reason is not forwarded) and returns nil (ok). -/
def SwitchPeerBehaviour.Behaved (spb : SwitchPeerBehaviour) (peerID : ID)
    (reason : GoodPeerBehaviour) : Except String Unit × SwitchPeerBehaviour :=
  match spb.sw.peersGet peerID with
  | none => (Except.error "Peer not found", spb)
  | some peer => (Except.ok (), { spb with sw := spb.sw.MarkPeerAsGood peer })

/-- One report call against the recording implementation: either method of the
reporting contract, with its peer and reason. -/
inductive Report where
  | errored : ID → ErrorPeerBehaviour → Report
  | behaved : ID → GoodPeerBehaviour → Report
deriving DecidableEq

/-- Peer a report is about. -/
def Report.peer : Report → ID
  | .errored p _ => p
  | .behaved p _ => p

/-- Application of one report call to the recording store.  Each call holds
the exclusive lock for its whole body, so it is one atomic step. -/
def StoredPeerBehaviour.report (spb : StoredPeerBehaviour) : Report → StoredPeerBehaviour
  | .errored p r => spb.Errored p r
  | .behaved p r => spb.Behaved p r

/-- Run of a report sequence against a fresh recording implementation.  A
concurrent execution of report calls is, by the atomicity the exclusive lock
provides, an arbitrary such sequence (some serialization order). -/
def runReports (ops : List Report) : StoredPeerBehaviour :=
  ops.foldl StoredPeerBehaviour.report NewStoredPeerBehaviour

/-- Reasons of the Errored reports issued for p, in issue order. -/
def erroredReportsFor (p : ID) (ops : List Report) : List ErrorPeerBehaviour :=
  ops.filterMap fun op => match op with
    | .errored q r => if q = p then some r else none
    | .behaved _ _ => none

/-- Reasons of the Behaved reports issued for p, in issue order. -/
def behavedReportsFor (p : ID) (ops : List Report) : List GoodPeerBehaviour :=
  ops.filterMap fun op => match op with
    | .errored _ _ => none
    | .behaved q r => if q = p then some r else none

/-- Reports issued for p, of either kind, in issue order. -/
def reportsFor (p : ID) (ops : List Report) : List Report :=
  ops.filter fun op => op.peer = p

theorem goMapGet_goMapSet {α : Type} (m : List (ID × α)) (k q : ID) (v : α) :
    goMapGet (goMapSet m k v) q = if k = q then some v else goMapGet m q := by
  induction m with
  | nil => simp [goMapSet, goMapGet]
  | cons hd tl ih =>
      obtain ⟨k1, v1⟩ := hd
      simp only [goMapSet]
      split
      · next h1 =>
          subst h1
          by_cases hq : k1 = q
          · simp [goMapGet, hq]
          · simp [goMapGet, hq]
      · next h1 =>
          by_cases hq : k1 = q
          · subst hq
            have hkq : ¬ k = k1 := fun h => h1 h.symm
            simp [goMapGet, hkq]
          · simp [goMapGet, hq, ih]

theorem goCopy_goMake (l : List Int) : goCopy (goMake l.length) l = l := by
  simp [goCopy, goMake]

theorem getErrorBehaviours_fst (s : StoredPeerBehaviour) (p : ID) :
    (s.GetErrorBehaviours p).1 = (goMapGet s.eb p).getD [] := by
  unfold StoredPeerBehaviour.GetErrorBehaviours
  cases h : goMapGet s.eb p with
  | none => simp
  | some items => simp [goCopy_goMake]

theorem getGoodBehaviours_fst (s : StoredPeerBehaviour) (p : ID) :
    (s.GetGoodBehaviours p).1 = (goMapGet s.gb p).getD [] := by
  unfold StoredPeerBehaviour.GetGoodBehaviours
  cases h : goMapGet s.gb p with
  | none => simp
  | some items => simp [goCopy_goMake]

theorem Errored_eb_get (s : StoredPeerBehaviour) (p q : ID) (r : ErrorPeerBehaviour) :
    goMapGet (s.Errored p r).eb q
      = if p = q then some ((goMapGet s.eb p).getD [] ++ [r]) else goMapGet s.eb q := by
  unfold StoredPeerBehaviour.Errored
  cases h : goMapGet s.eb p with
  | none => simp [goMapGet_goMapSet, h]
  | some items => simp [goMapGet_goMapSet, h]

theorem Errored_gb (s : StoredPeerBehaviour) (p : ID) (r : ErrorPeerBehaviour) :
    (s.Errored p r).gb = s.gb := by
  unfold StoredPeerBehaviour.Errored
  cases goMapGet s.eb p <;> rfl

theorem Behaved_gb_get (s : StoredPeerBehaviour) (p q : ID) (g : GoodPeerBehaviour) :
    goMapGet (s.Behaved p g).gb q
      = if p = q then some ((goMapGet s.gb p).getD [] ++ [g]) else goMapGet s.gb q := by
  unfold StoredPeerBehaviour.Behaved
  cases h : goMapGet s.gb p with
  | none => simp [goMapGet_goMapSet, h]
  | some items => simp [goMapGet_goMapSet, h]

theorem Behaved_eb (s : StoredPeerBehaviour) (p : ID) (g : GoodPeerBehaviour) :
    (s.Behaved p g).eb = s.eb := by
  unfold StoredPeerBehaviour.Behaved
  cases goMapGet s.gb p <;> rfl

theorem getErr_Errored (s : StoredPeerBehaviour) (p q : ID) (r : ErrorPeerBehaviour) :
    ((s.Errored q r).GetErrorBehaviours p).1
      = (s.GetErrorBehaviours p).1 ++ (if q = p then [r] else []) := by
  rw [getErrorBehaviours_fst, getErrorBehaviours_fst, Errored_eb_get]
  by_cases h : q = p
  · simp [h]
  · simp [h]

theorem getErr_Behaved (s : StoredPeerBehaviour) (p q : ID) (g : GoodPeerBehaviour) :
    ((s.Behaved q g).GetErrorBehaviours p).1 = (s.GetErrorBehaviours p).1 := by
  rw [getErrorBehaviours_fst, getErrorBehaviours_fst, Behaved_eb]

theorem getGood_Behaved (s : StoredPeerBehaviour) (p q : ID) (g : GoodPeerBehaviour) :
    ((s.Behaved q g).GetGoodBehaviours p).1
      = (s.GetGoodBehaviours p).1 ++ (if q = p then [g] else []) := by
  rw [getGoodBehaviours_fst, getGoodBehaviours_fst, Behaved_gb_get]
  by_cases h : q = p
  · simp [h]
  · simp [h]

theorem getGood_Errored (s : StoredPeerBehaviour) (p q : ID) (r : ErrorPeerBehaviour) :
    ((s.Errored q r).GetGoodBehaviours p).1 = (s.GetGoodBehaviours p).1 := by
  rw [getGoodBehaviours_fst, getGoodBehaviours_fst, Errored_gb]

theorem runReports_from (ops : List Report) (s : StoredPeerBehaviour) (p : ID) :
    ((ops.foldl StoredPeerBehaviour.report s).GetErrorBehaviours p).1
        = (s.GetErrorBehaviours p).1 ++ erroredReportsFor p ops
    ∧ ((ops.foldl StoredPeerBehaviour.report s).GetGoodBehaviours p).1
        = (s.GetGoodBehaviours p).1 ++ behavedReportsFor p ops := by
  induction ops generalizing s with
  | nil => simp [erroredReportsFor, behavedReportsFor]
  | cons op tl ih =>
      obtain ⟨ihe, ihg⟩ := ih (s.report op)
      cases op with
      | errored q r =>
          constructor
          · rw [List.foldl_cons, ihe]
            simp only [StoredPeerBehaviour.report, getErr_Errored,
              erroredReportsFor, List.filterMap_cons]
            by_cases h : q = p <;> simp [h]
          · rw [List.foldl_cons, ihg]
            simp only [StoredPeerBehaviour.report, getGood_Errored,
              behavedReportsFor, List.filterMap_cons]
      | behaved q g =>
          constructor
          · rw [List.foldl_cons, ihe]
            simp only [StoredPeerBehaviour.report, getErr_Behaved,
              erroredReportsFor, List.filterMap_cons]
          · rw [List.foldl_cons, ihg]
            simp only [StoredPeerBehaviour.report, getGood_Behaved,
              behavedReportsFor, List.filterMap_cons]
            by_cases h : q = p <;> simp [h]

theorem runReports_getErr (ops : List Report) (p : ID) :
    ((runReports ops).GetErrorBehaviours p).1 = erroredReportsFor p ops := by
  have h := (runReports_from ops NewStoredPeerBehaviour p).1
  simpa [runReports, NewStoredPeerBehaviour, getErrorBehaviours_fst, goMapGet] using h

theorem runReports_getGood (ops : List Report) (p : ID) :
    ((runReports ops).GetGoodBehaviours p).1 = behavedReportsFor p ops := by
  have h := (runReports_from ops NewStoredPeerBehaviour p).2
  simpa [runReports, NewStoredPeerBehaviour, getGoodBehaviours_fst, goMapGet] using h

theorem erroredReportsFor_cons_errored (p q : ID) (r : ErrorPeerBehaviour)
    (tl : List Report) :
    erroredReportsFor p (Report.errored q r :: tl)
      = (if q = p then [r] else []) ++ erroredReportsFor p tl := by
  by_cases h : q = p <;> simp [erroredReportsFor, List.filterMap_cons, h]

theorem erroredReportsFor_cons_behaved (p q : ID) (g : GoodPeerBehaviour)
    (tl : List Report) :
    erroredReportsFor p (Report.behaved q g :: tl) = erroredReportsFor p tl := by
  simp [erroredReportsFor, List.filterMap_cons]

theorem behavedReportsFor_cons_errored (p q : ID) (r : ErrorPeerBehaviour)
    (tl : List Report) :
    behavedReportsFor p (Report.errored q r :: tl) = behavedReportsFor p tl := by
  simp [behavedReportsFor, List.filterMap_cons]

theorem behavedReportsFor_cons_behaved (p q : ID) (g : GoodPeerBehaviour)
    (tl : List Report) :
    behavedReportsFor p (Report.behaved q g :: tl)
      = (if q = p then [g] else []) ++ behavedReportsFor p tl := by
  by_cases h : q = p <;> simp [behavedReportsFor, List.filterMap_cons, h]

theorem reportsFor_cons (p : ID) (op : Report) (tl : List Report) :
    reportsFor p (op :: tl) = (if op.peer = p then [op] else []) ++ reportsFor p tl := by
  by_cases h : op.peer = p <;> simp [reportsFor, List.filter_cons, h]

theorem counts_partition (p : ID) (ops : List Report) :
    (erroredReportsFor p ops).length + (behavedReportsFor p ops).length
      = (reportsFor p ops).length := by
  induction ops with
  | nil => simp [erroredReportsFor, behavedReportsFor, reportsFor]
  | cons op tl ih =>
      rw [reportsFor_cons]
      cases op with
      | errored q r =>
          rw [erroredReportsFor_cons_errored, behavedReportsFor_cons_errored]
          by_cases h : q = p <;> simp [Report.peer, h] <;> omega
      | behaved q g =>
          rw [erroredReportsFor_cons_behaved, behavedReportsFor_cons_behaved]
          by_cases h : q = p <;> simp [Report.peer, h] <;> omega

/-- Heap of Go slice backing arrays, for the model in which the defensive copy
made by the getters is observable.  A reference (slice value) is an index into
the heap. -/
structure SliceHeap where
  cells : List (List Int)
deriving DecidableEq

/-- Contents of the backing array a reference points to.  A dangling reference
reads as empty; well-formed states rule dangling references out. -/
def SliceHeap.read (h : SliceHeap) (ref : Nat) : List Int :=
  h.cells.getD ref []

/-- In-place overwrite of the backing array a reference points to. -/
def SliceHeap.write (h : SliceHeap) (ref : Nat) (v : List Int) : SliceHeap :=
  ⟨h.cells.set ref v⟩

/-- Allocation of a fresh backing array, returning the heap and the new
reference. -/
def SliceHeap.alloc (h : SliceHeap) (v : List Int) : SliceHeap × Nat :=
  (⟨h.cells ++ [v]⟩, h.cells.length)

/-- Go struct StoredPeerBehaviour in the slice-aliasing model: the two maps
hold slice references into a heap of backing arrays, so that caller-side
mutation of a returned slice is observable. -/
structure StoredPeerBehaviourMem where
  heap : SliceHeap
  eb : List (ID × Nat)
  gb : List (ID × Nat)
deriving DecidableEq

/-- Go function NewStoredPeerBehaviour in the slice-aliasing model. -/
def NewStoredPeerBehaviourMem : StoredPeerBehaviourMem :=
  { heap := ⟨[]⟩, eb := [], gb := [] }

/-- Go method StoredPeerBehaviour.Errored in the slice-aliasing model: the
slice produced by append (a fresh array holding the old contents and reason)
is stored in the map. -/
def StoredPeerBehaviourMem.Errored (s : StoredPeerBehaviourMem) (peerID : ID)
    (reason : ErrorPeerBehaviour) : StoredPeerBehaviourMem :=
  match goMapGet s.eb peerID with
  | none =>
      let a := s.heap.alloc [reason]
      { s with heap := a.1, eb := goMapSet s.eb peerID a.2 }
  | some ref =>
      let a := s.heap.alloc (s.heap.read ref ++ [reason])
      { s with heap := a.1, eb := goMapSet s.eb peerID a.2 }

/-- Go method StoredPeerBehaviour.Behaved in the slice-aliasing model. -/
def StoredPeerBehaviourMem.Behaved (s : StoredPeerBehaviourMem) (peerID : ID)
    (reason : GoodPeerBehaviour) : StoredPeerBehaviourMem :=
  match goMapGet s.gb peerID with
  | none =>
      let a := s.heap.alloc [reason]
      { s with heap := a.1, gb := goMapSet s.gb peerID a.2 }
  | some ref =>
      let a := s.heap.alloc (s.heap.read ref ++ [reason])
      { s with heap := a.1, gb := goMapSet s.gb peerID a.2 }

/-- Go method StoredPeerBehaviour.GetErrorBehaviours in the slice-aliasing
model: result := make(len(items)); copy(result, items); return result — the
returned slice is a freshly allocated copy of the stored one, and an absent
key yields a fresh empty slice. -/
def StoredPeerBehaviourMem.GetErrorBehaviours (s : StoredPeerBehaviourMem)
    (peerID : ID) : StoredPeerBehaviourMem × Nat :=
  match goMapGet s.eb peerID with
  | some ref =>
      let a := s.heap.alloc (goCopy (goMake (s.heap.read ref).length) (s.heap.read ref))
      ({ s with heap := a.1 }, a.2)
  | none =>
      let a := s.heap.alloc []
      ({ s with heap := a.1 }, a.2)

/-- Go method StoredPeerBehaviour.GetGoodBehaviours in the slice-aliasing
model. -/
def StoredPeerBehaviourMem.GetGoodBehaviours (s : StoredPeerBehaviourMem)
    (peerID : ID) : StoredPeerBehaviourMem × Nat :=
  match goMapGet s.gb peerID with
  | some ref =>
      let a := s.heap.alloc (goCopy (goMake (s.heap.read ref).length) (s.heap.read ref))
      ({ s with heap := a.1 }, a.2)
  | none =>
      let a := s.heap.alloc []
      ({ s with heap := a.1 }, a.2)

/-- Contents of the slice GetErrorBehaviours returns. -/
def getErrContent (s : StoredPeerBehaviourMem) (p : ID) : List Int :=
  (s.GetErrorBehaviours p).1.heap.read (s.GetErrorBehaviours p).2

/-- Contents of the slice GetGoodBehaviours returns. -/
def getGoodContent (s : StoredPeerBehaviourMem) (p : ID) : List Int :=
  (s.GetGoodBehaviours p).1.heap.read (s.GetGoodBehaviours p).2

/-- Caller-side mutation of a returned slice: result[i] = v, a write through
the returned reference into its backing array. -/
def mutateSlice (s : StoredPeerBehaviourMem) (ref : Nat) (i : Nat) (v : Int) :
    StoredPeerBehaviourMem :=
  { s with heap := s.heap.write ref ((s.heap.read ref).set i v) }

/-- Well-formedness: every stored slice reference points into the heap. -/
def StoredPeerBehaviourMem.WF (s : StoredPeerBehaviourMem) : Prop :=
  (∀ pr ∈ s.eb, pr.2 < s.heap.cells.length)
  ∧ (∀ pr ∈ s.gb, pr.2 < s.heap.cells.length)

theorem goMapGet_mem {α : Type} (m : List (ID × α)) (k : ID) (v : α)
    (h : goMapGet m k = some v) : ∃ pr ∈ m, pr.2 = v := by
  induction m with
  | nil => simp [goMapGet] at h
  | cons hd tl ih =>
      obtain ⟨k1, v1⟩ := hd
      simp only [goMapGet] at h
      by_cases h1 : k1 = k
      · rw [if_pos h1] at h
        exact ⟨(k1, v1), by simp, by simpa using h⟩
      · rw [if_neg h1] at h
        obtain ⟨pr, hpr, hv⟩ := ih h
        exact ⟨pr, by simp [hpr], hv⟩

theorem read_alloc_lt (h : SliceHeap) (v : List Int) (r : Nat)
    (hr : r < h.cells.length) : (h.alloc v).1.read r = h.read r := by
  simp only [SliceHeap.alloc, SliceHeap.read, List.getD_eq_getElem?_getD]
  rw [List.getElem?_append_left hr]

theorem read_alloc_self (h : SliceHeap) (v : List Int) :
    (h.alloc v).1.read (h.alloc v).2 = v := by
  simp only [SliceHeap.alloc, SliceHeap.read, List.getD_eq_getElem?_getD]
  rw [List.getElem?_concat_length]
  rfl

theorem read_write_ne (h : SliceHeap) (r r2 : Nat) (v : List Int)
    (hne : r2 ≠ r) : (h.write r2 v).read r = h.read r := by
  simp only [SliceHeap.write, SliceHeap.read, List.getD_eq_getElem?_getD]
  rw [List.getElem?_set_ne hne]

theorem getErrContent_none (s : StoredPeerBehaviourMem) (p : ID)
    (h : goMapGet s.eb p = none) : getErrContent s p = [] := by
  unfold getErrContent StoredPeerBehaviourMem.GetErrorBehaviours
  rw [h]
  simp [read_alloc_self]

theorem getErrContent_some (s : StoredPeerBehaviourMem) (p : ID) (ref : Nat)
    (h : goMapGet s.eb p = some ref) : getErrContent s p = s.heap.read ref := by
  unfold getErrContent StoredPeerBehaviourMem.GetErrorBehaviours
  rw [h]
  simpa [read_alloc_self] using goCopy_goMake (s.heap.read ref)

theorem getGoodContent_none (s : StoredPeerBehaviourMem) (p : ID)
    (h : goMapGet s.gb p = none) : getGoodContent s p = [] := by
  unfold getGoodContent StoredPeerBehaviourMem.GetGoodBehaviours
  rw [h]
  simp [read_alloc_self]

theorem getGoodContent_some (s : StoredPeerBehaviourMem) (p : ID) (ref : Nat)
    (h : goMapGet s.gb p = some ref) : getGoodContent s p = s.heap.read ref := by
  unfold getGoodContent StoredPeerBehaviourMem.GetGoodBehaviours
  rw [h]
  simpa [read_alloc_self] using goCopy_goMake (s.heap.read ref)

theorem GetErrorBehaviours_some_eq (s : StoredPeerBehaviourMem) (p : ID) (ref : Nat)
    (h : goMapGet s.eb p = some ref) :
    s.GetErrorBehaviours p
      = ({ s with
            heap := (s.heap.alloc
              (goCopy (goMake (s.heap.read ref).length) (s.heap.read ref))).1 },
         s.heap.cells.length) := by
  unfold StoredPeerBehaviourMem.GetErrorBehaviours
  rw [h]
  rfl

theorem GetErrorBehaviours_none_eq (s : StoredPeerBehaviourMem) (p : ID)
    (h : goMapGet s.eb p = none) :
    s.GetErrorBehaviours p
      = ({ s with heap := (s.heap.alloc []).1 }, s.heap.cells.length) := by
  unfold StoredPeerBehaviourMem.GetErrorBehaviours
  rw [h]
  rfl

theorem GetGoodBehaviours_some_eq (s : StoredPeerBehaviourMem) (p : ID) (ref : Nat)
    (h : goMapGet s.gb p = some ref) :
    s.GetGoodBehaviours p
      = ({ s with
            heap := (s.heap.alloc
              (goCopy (goMake (s.heap.read ref).length) (s.heap.read ref))).1 },
         s.heap.cells.length) := by
  unfold StoredPeerBehaviourMem.GetGoodBehaviours
  rw [h]
  rfl

theorem GetGoodBehaviours_none_eq (s : StoredPeerBehaviourMem) (p : ID)
    (h : goMapGet s.gb p = none) :
    s.GetGoodBehaviours p
      = ({ s with heap := (s.heap.alloc []).1 }, s.heap.cells.length) := by
  unfold StoredPeerBehaviourMem.GetGoodBehaviours
  rw [h]
  rfl

theorem getErr_after_mutation (s : StoredPeerBehaviourMem) (p : ID) (i : Nat)
    (v : Int) (hwf : ∀ pr ∈ s.eb, pr.2 < s.heap.cells.length) :
    getErrContent (mutateSlice (s.GetErrorBehaviours p).1 (s.GetErrorBehaviours p).2 i v) p
      = getErrContent s p := by
  cases h : goMapGet s.eb p with
  | none =>
      rw [getErrContent_none s p h]
      simp only [GetErrorBehaviours_none_eq s p h]
      exact getErrContent_none _ p (by simpa [mutateSlice] using h)
  | some ref =>
      have href : ref < s.heap.cells.length := by
        obtain ⟨pr, hmem, hv⟩ := goMapGet_mem s.eb p ref h
        have h2 := hwf pr hmem
        omega
      rw [getErrContent_some s p ref h]
      simp only [GetErrorBehaviours_some_eq s p ref h]
      rw [getErrContent_some _ p ref (by simpa [mutateSlice] using h)]
      simp only [mutateSlice]
      rw [read_write_ne _ _ _ _ (by omega : s.heap.cells.length ≠ ref)]
      exact read_alloc_lt s.heap _ ref href

theorem getGood_after_mutation (s : StoredPeerBehaviourMem) (p : ID) (i : Nat)
    (v : Int) (hwf : ∀ pr ∈ s.gb, pr.2 < s.heap.cells.length) :
    getGoodContent (mutateSlice (s.GetGoodBehaviours p).1 (s.GetGoodBehaviours p).2 i v) p
      = getGoodContent s p := by
  cases h : goMapGet s.gb p with
  | none =>
      rw [getGoodContent_none s p h]
      simp only [GetGoodBehaviours_none_eq s p h]
      exact getGoodContent_none _ p (by simpa [mutateSlice] using h)
  | some ref =>
      have href : ref < s.heap.cells.length := by
        obtain ⟨pr, hmem, hv⟩ := goMapGet_mem s.gb p ref h
        have h2 := hwf pr hmem
        omega
      rw [getGoodContent_some s p ref h]
      simp only [GetGoodBehaviours_some_eq s p ref h]
      rw [getGoodContent_some _ p ref (by simpa [mutateSlice] using h)]
      simp only [mutateSlice]
      rw [read_write_ne _ _ _ _ (by omega : s.heap.cells.length ≠ ref)]
      exact read_alloc_lt s.heap _ ref href

def c1Scenario : List Report :=
  [Report.errored "p1" ErrorPeerBehaviourMessageOutofOrder,
   Report.behaved "p1" GoodPeerBehaviourVote,
   Report.errored "p1" ErrorPeerBehaviourBadMessage]

/-- C1: against a fresh Recording Implementation, for every report sequence
and every peer p, GetErrorBehaviours p returns exactly the reasons of the
Errored reports issued for p in issue order and GetGoodBehaviours p exactly
those of the Behaved reports, the two kinds never intermixing; in particular
the scenario Errored(p1, MessageOutofOrder); Behaved(p1, Vote);
Errored(p1, BadMessage) yields the stated logs, and every other peer p2 has an
empty error log. -/
theorem C1_recording_logs_exact :
    (∀ ops p, ((runReports ops).GetErrorBehaviours p).1 = erroredReportsFor p ops
      ∧ ((runReports ops).GetGoodBehaviours p).1 = behavedReportsFor p ops)
    ∧ ((runReports c1Scenario).GetErrorBehaviours "p1").1
        = [ErrorPeerBehaviourMessageOutofOrder, ErrorPeerBehaviourBadMessage]
    ∧ ((runReports c1Scenario).GetGoodBehaviours "p1").1 = [GoodPeerBehaviourVote]
    ∧ ∀ p2, p2 ≠ "p1" → ((runReports c1Scenario).GetErrorBehaviours p2).1 = [] := by
  refine ⟨fun ops p => ⟨runReports_getErr ops p, runReports_getGood ops p⟩,
    by decide, by decide, ?_⟩
  intro p2 h
  rw [runReports_getErr]
  have hne : ¬ ("p1" : ID) = p2 := fun hc => h hc.symm
  simp [c1Scenario, erroredReportsFor, List.filterMap_cons, hne]

theorem C1_recording_logs_exact_witness :
    ((runReports c1Scenario).GetErrorBehaviours "p2").1 = [] :=
  C1_recording_logs_exact.2.2.2 "p2" (by decide)

def swOne : Switch :=
  { peers := ["p1"], stopPeerForErrorCalls := [], markPeerAsGoodCalls := [] }

/-- C2: for every peer in the active peer set of the connection manager, the
Live Implementation's Errored issues exactly one StopPeerForError call with
the same reason as the cause and returns success, and Behaved issues exactly
one MarkPeerAsGood call and returns success; no other manager call is made. -/
theorem C2_live_known_peer (sw : Switch) (p : ID) (r : ErrorPeerBehaviour)
    (g : GoodPeerBehaviour) (hmem : p ∈ sw.peers) :
    ((NewSwitchPeerBehaviour sw).Errored p r).1 = Except.ok ()
    ∧ ((NewSwitchPeerBehaviour sw).Errored p r).2.sw.stopPeerForErrorCalls
        = sw.stopPeerForErrorCalls ++ [(p, r)]
    ∧ ((NewSwitchPeerBehaviour sw).Errored p r).2.sw.markPeerAsGoodCalls
        = sw.markPeerAsGoodCalls
    ∧ ((NewSwitchPeerBehaviour sw).Behaved p g).1 = Except.ok ()
    ∧ ((NewSwitchPeerBehaviour sw).Behaved p g).2.sw.markPeerAsGoodCalls
        = sw.markPeerAsGoodCalls ++ [p]
    ∧ ((NewSwitchPeerBehaviour sw).Behaved p g).2.sw.stopPeerForErrorCalls
        = sw.stopPeerForErrorCalls := by
  unfold SwitchPeerBehaviour.Errored SwitchPeerBehaviour.Behaved
    NewSwitchPeerBehaviour Switch.peersGet
  simp [hmem, Switch.StopPeerForError, Switch.MarkPeerAsGood]

theorem C2_live_known_peer_witness :
    "p1" ∈ swOne.peers
    ∧ (((NewSwitchPeerBehaviour swOne).Errored "p1" ErrorPeerBehaviourBadMessage).1
          = Except.ok ()
      ∧ ((NewSwitchPeerBehaviour swOne).Errored "p1" ErrorPeerBehaviourBadMessage).2.sw.stopPeerForErrorCalls
          = swOne.stopPeerForErrorCalls ++ [("p1", ErrorPeerBehaviourBadMessage)]
      ∧ ((NewSwitchPeerBehaviour swOne).Errored "p1" ErrorPeerBehaviourBadMessage).2.sw.markPeerAsGoodCalls
          = swOne.markPeerAsGoodCalls
      ∧ ((NewSwitchPeerBehaviour swOne).Behaved "p1" GoodPeerBehaviourVote).1
          = Except.ok ()
      ∧ ((NewSwitchPeerBehaviour swOne).Behaved "p1" GoodPeerBehaviourVote).2.sw.markPeerAsGoodCalls
          = swOne.markPeerAsGoodCalls ++ ["p1"]
      ∧ ((NewSwitchPeerBehaviour swOne).Behaved "p1" GoodPeerBehaviourVote).2.sw.stopPeerForErrorCalls
          = swOne.stopPeerForErrorCalls) :=
  ⟨by decide,
   C2_live_known_peer swOne "p1" ErrorPeerBehaviourBadMessage GoodPeerBehaviourVote
     (by decide)⟩

/-- C3: for every peer absent from the active peer set, the Live
Implementation's Errored and Behaved return the peer-not-found error and the
whole return value carries the wrapped Switch unchanged: no StopPeerForError
and no MarkPeerAsGood call is issued. -/
theorem C3_live_unknown_peer (sw : Switch) (p : ID) (r : ErrorPeerBehaviour)
    (g : GoodPeerBehaviour) (hmem : p ∉ sw.peers) :
    (NewSwitchPeerBehaviour sw).Errored p r
        = (Except.error "Peer not found", NewSwitchPeerBehaviour sw)
    ∧ (NewSwitchPeerBehaviour sw).Behaved p g
        = (Except.error "Peer not found", NewSwitchPeerBehaviour sw) := by
  unfold SwitchPeerBehaviour.Errored SwitchPeerBehaviour.Behaved
    NewSwitchPeerBehaviour Switch.peersGet
  simp [hmem]

theorem C3_live_unknown_peer_witness :
    "p2" ∉ swOne.peers
    ∧ ((NewSwitchPeerBehaviour swOne).Errored "p2" ErrorPeerBehaviourBadMessage
          = (Except.error "Peer not found", NewSwitchPeerBehaviour swOne)
      ∧ (NewSwitchPeerBehaviour swOne).Behaved "p2" GoodPeerBehaviourVote
          = (Except.error "Peer not found", NewSwitchPeerBehaviour swOne)) :=
  ⟨by decide,
   C3_live_unknown_peer swOne "p2" ErrorPeerBehaviourBadMessage GoodPeerBehaviourVote
     (by decide)⟩

/-- C4: evaluation at the diverging point of the interface claim.  The Live
Implementation's report methods produce an error-or-success result, as the
PeerBehaviour contract requires; the Go methods of StoredPeerBehaviour return
nothing, so their embedding produces only the updated store, with no result
component, and the claimed common signature does not hold for the Recording
Implementation. -/
theorem C4_report_result_shapes :
    ((NewSwitchPeerBehaviour ⟨[], [], []⟩).Errored "p1" ErrorPeerBehaviourBadMessage).1
      = Except.error "Peer not found"
    ∧ NewStoredPeerBehaviour.Errored "p1" ErrorPeerBehaviourBadMessage
      = { eb := [("p1", [ErrorPeerBehaviourBadMessage])], gb := [] } := by
  constructor
  · rfl
  · rfl

/-- C5: in the slice-aliasing model, every getter returns a freshly allocated
copy of the stored log: for a well-formed state, writing through the returned
slice reference and calling the same getter again yields the original,
unmutated content, for both the error and the good log. -/
theorem C5_getters_return_copies (s : StoredPeerBehaviourMem) (p : ID) (i : Nat)
    (v : Int) (hwf : s.WF) :
    getErrContent
        (mutateSlice (s.GetErrorBehaviours p).1 (s.GetErrorBehaviours p).2 i v) p
      = getErrContent s p
    ∧ getGoodContent
        (mutateSlice (s.GetGoodBehaviours p).1 (s.GetGoodBehaviours p).2 i v) p
      = getGoodContent s p :=
  ⟨getErr_after_mutation s p i v hwf.1, getGood_after_mutation s p i v hwf.2⟩

def c5State : StoredPeerBehaviourMem :=
  (NewStoredPeerBehaviourMem.Errored "p1" ErrorPeerBehaviourMessageOutofOrder).Behaved
    "p1" GoodPeerBehaviourVote

theorem C5_getters_return_copies_witness :
    c5State.WF
    ∧ (getErrContent
          (mutateSlice (c5State.GetErrorBehaviours "p1").1
            (c5State.GetErrorBehaviours "p1").2 0 42) "p1"
        = getErrContent c5State "p1"
      ∧ getGoodContent
          (mutateSlice (c5State.GetGoodBehaviours "p1").1
            (c5State.GetGoodBehaviours "p1").2 0 42) "p1"
        = getGoodContent c5State "p1") :=
  ⟨⟨by decide, by decide⟩, C5_getters_return_copies c5State "p1" 0 42 ⟨by decide, by decide⟩⟩

/-- C6: a peer with zero recorded reports, including one never seen, gets an
empty sequence from both getters, and more generally absence of the key in
the underlying map reads as the empty sequence. -/
theorem C6_zero_reports_empty (ops : List Report) (p : ID)
    (s : StoredPeerBehaviour) (h1 : reportsFor p ops = [])
    (h2 : goMapGet s.eb p = none) (h3 : goMapGet s.gb p = none) :
    ((runReports ops).GetErrorBehaviours p).1 = []
    ∧ ((runReports ops).GetGoodBehaviours p).1 = []
    ∧ (s.GetErrorBehaviours p).1 = []
    ∧ (s.GetGoodBehaviours p).1 = [] := by
  have hl := counts_partition p ops
  rw [h1] at hl
  simp only [List.length_nil] at hl
  have he : erroredReportsFor p ops = [] := List.length_eq_zero.mp (by omega)
  have hg : behavedReportsFor p ops = [] := List.length_eq_zero.mp (by omega)
  refine ⟨?_, ?_, ?_, ?_⟩
  · rw [runReports_getErr, he]
  · rw [runReports_getGood, hg]
  · rw [getErrorBehaviours_fst, h2]; rfl
  · rw [getGoodBehaviours_fst, h3]; rfl

theorem C6_zero_reports_empty_witness :
    reportsFor "p2" [Report.errored "p1" ErrorPeerBehaviourBadMessage] = []
    ∧ goMapGet NewStoredPeerBehaviour.eb "p2" = none
    ∧ goMapGet NewStoredPeerBehaviour.gb "p2" = none
    ∧ (((runReports [Report.errored "p1" ErrorPeerBehaviourBadMessage]).GetErrorBehaviours "p2").1 = []
      ∧ ((runReports [Report.errored "p1" ErrorPeerBehaviourBadMessage]).GetGoodBehaviours "p2").1 = []
      ∧ (NewStoredPeerBehaviour.GetErrorBehaviours "p2").1 = []
      ∧ (NewStoredPeerBehaviour.GetGoodBehaviours "p2").1 = []) :=
  ⟨by decide, by decide, by decide,
   C6_zero_reports_empty [Report.errored "p1" ErrorPeerBehaviourBadMessage] "p2"
     NewStoredPeerBehaviour (by decide) (by decide) (by decide)⟩

/-- C7: the Recording Implementation accepts every report unconditionally:
for every store state, every peer identity (seen before or not) and every
reason, Errored appends the reason to the error log of that peer and Behaved
appends to its good log; the methods are total and have no failure mode. -/
theorem C7_recording_always_appends (s : StoredPeerBehaviour) (p : ID)
    (r : ErrorPeerBehaviour) (g : GoodPeerBehaviour) :
    ((s.Errored p r).GetErrorBehaviours p).1 = (s.GetErrorBehaviours p).1 ++ [r]
    ∧ ((s.Behaved p g).GetGoodBehaviours p).1 = (s.GetGoodBehaviours p).1 ++ [g] := by
  constructor
  · rw [getErr_Errored]; simp
  · rw [getGood_Behaved]; simp

/-- C8: the numeric values of the good behaviour tags (Vote = 100,
BlockPart = 101) and of the error behaviour tags (Unknown = 0, BadMessage = 1,
MessageOutofOrder = 2) are pairwise distinct across the two sets. -/
theorem C8_disjoint_tag_values :
    GoodPeerBehaviourVote ≠ ErrorPeerBehaviourUnknown
    ∧ GoodPeerBehaviourVote ≠ ErrorPeerBehaviourBadMessage
    ∧ GoodPeerBehaviourVote ≠ ErrorPeerBehaviourMessageOutofOrder
    ∧ GoodPeerBehaviourBlockPart ≠ ErrorPeerBehaviourUnknown
    ∧ GoodPeerBehaviourBlockPart ≠ ErrorPeerBehaviourBadMessage
    ∧ GoodPeerBehaviourBlockPart ≠ ErrorPeerBehaviourMessageOutofOrder := by
  decide

/-- C9: concurrency is modelled by the atomicity the exclusive lock gives each
report call: a concurrent execution is an arbitrary serialization ops of whole
calls.  For every such serialization and every peer, the total length of the
two logs equals the number of report calls made for that peer (no lost
updates), and the logs consist exactly of the issued reasons, whole, in
order (a reader never observes a partially appended entry). -/
theorem C9_no_lost_updates (ops : List Report) (p : ID) :
    ((runReports ops).GetErrorBehaviours p).1.length
        + ((runReports ops).GetGoodBehaviours p).1.length
      = (reportsFor p ops).length
    ∧ ((runReports ops).GetErrorBehaviours p).1 = erroredReportsFor p ops
    ∧ ((runReports ops).GetGoodBehaviours p).1 = behavedReportsFor p ops := by
  refine ⟨?_, runReports_getErr ops p, runReports_getGood ops p⟩
  rw [runReports_getErr, runReports_getGood]
  exact counts_partition p ops

/-- C10: the getters are pure reads: for every store state and every peer,
including one with no entries, GetErrorBehaviours and GetGoodBehaviours return
the receiver unchanged — a read of an absent peer creates no key — so no
sequence of getter calls changes the result of any later call. -/
theorem C10_getters_pure (s : StoredPeerBehaviour) (p : ID) :
    (s.GetErrorBehaviours p).2 = s ∧ (s.GetGoodBehaviours p).2 = s := by
  constructor
  · unfold StoredPeerBehaviour.GetErrorBehaviours
    cases goMapGet s.eb p <;> rfl
  · unfold StoredPeerBehaviour.GetGoodBehaviours
    cases goMapGet s.gb p <;> rfl


example :
    ((NewStoredPeerBehaviour.Errored "p1" 2).GetGoodBehaviours "p1").1 = [] := by
  decide

example :
    (SwitchPeerBehaviour.Errored (NewSwitchPeerBehaviour ⟨["p1"], [], []⟩) "p1" 1).1
      = Except.ok () := by
  rfl
